import Mathlib

/-!
Shallow embedding of `src/bench/bench_compare.py`, centred on the function
`bench_compare_multiple` (the "Comparator" of the specification).

The Python function is:

    def bench_compare_multiple(logger, *param_groups, **fn_names):
        title_str, ans_str, time_str = "Testing ...", "\t...(...) = ...", "\tTime = ..."
        for name, fn in fn_names.items():
            str_params = {'name': name}
            print(title_str.format(**str_params))
            for pg in param_groups:
                str_params |= {'params': pg}
                try:
                    start = time.time()
                    result = fn(*pg)
                    exec = time.time() - start
                except TypeError:
                    start = time.time()
                    result = fn(pg)
                    exec = time.time() - start
                str_params |= {'time': exec, 'ans': result}
                print(ans_str.format(**str_params))
                print(time_str.format(**str_params))

Modelling decisions, each mirroring the source:
* `time.time()` is modelled as an abstract sequence of clock reads
  `clock : ℕ → ℚ`, consumed in order; each call to `time.time()` is the
  next read.  Elapsed times are differences of reads, exactly as computed
  by the source.
* A Python callable is modelled by its behaviour under the two call shapes
  the source uses: `callUnpacked` for `fn(*pg)` and `callWhole` for
  `fn(pg)`.  A call either returns a value or raises; a raised exception
  is either a `TypeError` (the only class the source catches; a ghost
  Boolean records whether it arose from argument binding or from the
  callable's own body — Python's `except TypeError` cannot tell them
  apart and neither does the model) or any other exception.
* `print` output is collected as a list of structured lines (`OutLine`);
  `renderLine` reproduces the source's format strings as text.
* The `logger` parameter is accepted, as in the source, and — as in the
  source — never used: no line of `bench_compare_multiple` ever invokes
  it.  The `sinkMsgs` field of the output records every message delivered
  to the logger during a run; since the source contains no call to
  `logger`, it is always empty.
* An exception that escapes the `try/except TypeError` block propagates
  out of the whole function: the run aborts, which the model reports as
  `err = some e` together with the lines printed before the abort.
-/

namespace Bench

/-- Python values occurring in the benchmark scenarios: integers and
tuples of values (parameter groups are passed around as tuples). -/
inductive Val where
  | int : Int → Val
  | tuple : List Val → Val

mutual

/-- Decidable equality of values (the nested inductive defeats the
automatic derivation). -/
def decEqVal : (a b : Val) → Decidable (a = b)
  | .int m, .int n =>
      if h : m = n then .isTrue (by rw [h]) else .isFalse (by intro hc; cases hc; exact h rfl)
  | .int _, .tuple _ => .isFalse (by intro hc; cases hc)
  | .tuple _, .int _ => .isFalse (by intro hc; cases hc)
  | .tuple xs, .tuple ys =>
      match decEqValList xs ys with
      | .isTrue h => .isTrue (by rw [h])
      | .isFalse h => .isFalse (by intro hc; cases hc; exact h rfl)

/-- Decidable equality of lists of values. -/
def decEqValList : (xs ys : List Val) → Decidable (xs = ys)
  | [], [] => .isTrue rfl
  | [], _ :: _ => .isFalse (by intro hc; cases hc)
  | _ :: _, [] => .isFalse (by intro hc; cases hc)
  | x :: xs, y :: ys =>
      match decEqVal x y, decEqValList xs ys with
      | .isTrue h1, .isTrue h2 => .isTrue (by rw [h1, h2])
      | .isFalse h1, _ => .isFalse (by intro hc; cases hc; exact h1 rfl)
      | _, .isFalse h2 => .isFalse (by intro hc; cases hc; exact h2 rfl)

end

instance : DecidableEq Val := decEqVal

/-- A Python exception, as far as `bench_compare_multiple` can observe it:
`except TypeError` distinguishes exactly `TypeError` from everything else.
The `fromBinding` flag is ghost information recording whether the
`TypeError` arose from argument binding (arity mismatch) or from inside
the callable's own body; the source's `except TypeError:` catches both. -/
inductive PyErr where
  | typeError (fromBinding : Bool) : PyErr
  | other : PyErr
deriving DecidableEq

/-- Result of one Python call: a value, or a raised exception. -/
abbrev PyResult := Except PyErr Val

/-- A Python callable, modelled by its behaviour under the two call shapes
used by the source: `callUnpacked pg` models `fn(*pg)` and
`callWhole pg` models `fn(pg)` (the whole group as a single argument). -/
structure PyCallable where
  callUnpacked : List Val → PyResult
  callWhole : List Val → PyResult

/-- One output line of `bench_compare_multiple`, in structured form:
the header `title_str`, the result line `ans_str` and the timing line
`time_str`. -/
inductive OutLine where
  | header (name : String) : OutLine
  | result (name : String) (pg : List Val) (ans : Val) : OutLine
  | timing (t : ℚ) : OutLine
deriving DecidableEq

mutual

/-- Python `str` of a value: `str(3) = "3"`,
`str((1, 2)) = "(1, 2)"`, `str((1,)) = "(1,)"`. -/
def pyStr : Val → String
  | .int n => toString n
  | .tuple [] => "()"
  | .tuple [v] => "(" ++ pyStr v ++ ",)"
  | .tuple (v :: w :: vs) => "(" ++ pyStr v ++ pyStrRest (w :: vs) ++ ")"

/-- Remaining elements of a tuple rendering, each preceded by `", "`. -/
def pyStrRest : List Val → String
  | [] => ""
  | v :: vs => ", " ++ pyStr v ++ pyStrRest vs

end

/-- Rendering of a rational elapsed time as text (stand-in for Python's
float formatting; no claim constrains its exact shape). -/
def timeStr (t : ℚ) : String :=
  toString t.num ++ "/" ++ toString t.den

/-- The source's three format strings, applied to a structured line:
`"Testing {name}:"`, `"\t{name}({params}) = {ans}"`, `"\tTime = {time}"`
(braces elided here; `{params}` is formatted as the Python tuple `pg`). -/
def renderLine : OutLine → String
  | .header name => "Testing " ++ name ++ ":"
  | .result name pg ans => "\t" ++ name ++ "(" ++ pyStr (.tuple pg) ++ ") = " ++ pyStr ans
  | .timing t => "\tTime = " ++ timeStr t

/-- The body of `try/except TypeError` for one `(fn, pg)` pair, with `i`
the index of the next clock read.  `fn(*pg)` is attempted first; on
success the elapsed time is the difference of the two surrounding reads.
If it raises a `TypeError` (of either provenance), `fn(pg)` is attempted,
again timed by two fresh reads.  Any other outcome propagates the
exception.  On success, returns the result value, the elapsed time, and
the next unused clock-read index. -/
def invokePair (clock : ℕ → ℚ) (i : ℕ) (fn : PyCallable) (pg : List Val) :
    Except PyErr (Val × ℚ × ℕ) :=
  match fn.callUnpacked pg with
  | .ok v => .ok (v, clock (i + 1) - clock i, i + 2)
  | .error (.typeError _) =>
      match fn.callWhole pg with
      | .ok v => .ok (v, clock (i + 2) - clock (i + 1), i + 3)
      | .error e => .error e
  | .error .other => .error .other

/-- The inner loop `for pg in param_groups` of `bench_compare_multiple`
for one callable: on each success print the result line and the timing
line and continue; on an uncaught exception stop, reporting the lines
printed so far and the exception.  Returns the printed lines, the next
clock-read index, and the propagated exception if any. -/
def runGroups (clock : ℕ → ℚ) (fn : PyCallable) (name : String) :
    ℕ → List (List Val) → List OutLine × ℕ × Option PyErr
  | i, [] => ([], i, none)
  | i, pg :: rest =>
      match invokePair clock i fn pg with
      | .ok (v, t, i2) =>
          let r := runGroups clock fn name i2 rest
          (.result name pg v :: .timing t :: r.1, r.2.1, r.2.2)
      | .error e => ([], i, some e)

/-- The outer loop `for name, fn in fn_names.items()`: print the header
for each callable, run all parameter groups, and stop the whole run if an
exception propagates. -/
def runAll (clock : ℕ → ℚ) (pgs : List (List Val)) :
    ℕ → List (String × PyCallable) → List OutLine × ℕ × Option PyErr
  | i, [] => ([], i, none)
  | i, (name, fn) :: rest =>
      match runGroups clock fn name i pgs with
      | (ls, i2, some e) => (.header name :: ls, i2, some e)
      | (ls, i2, none) =>
          match runAll clock pgs i2 rest with
          | (ls2, i3, e2) => (.header name :: ls ++ ls2, i3, e2)

/-- Observable outcome of one run of `bench_compare_multiple`:
the lines printed (in order), the messages delivered to the supplied
`logger` sink, and the exception that aborted the run, if any. -/
structure BenchOutput where
  printed : List OutLine
  sinkMsgs : List String
  err : Option PyErr
deriving DecidableEq

/-- `bench_compare_multiple(logger, *param_groups, **fn_names)`.
`fn_names` is an association list (Python keyword dictionaries preserve
insertion order).  The `logger` argument is accepted and, as in the
source, never used: every line goes through `print`, so `sinkMsgs` is
`[]`. -/
def bench_compare_multiple {α : Type} (clock : ℕ → ℚ) (logger : α)
    (param_groups : List (List Val)) (fn_names : List (String × PyCallable)) :
    BenchOutput :=
  match runAll clock param_groups 0 fn_names with
  | (ls, _, e) => { printed := ls, sinkMsgs := [], err := e }

/-! ### Derived predicates and concrete callables used by the claims -/

/-- Is this line a header line? -/
def isHeaderLine : OutLine → Bool
  | .header _ => true
  | _ => false

/-- Is this line a result line? -/
def isResultLine : OutLine → Bool
  | .result _ _ _ => true
  | _ => false

/-- Is this line a timing line? -/
def isTimingLine : OutLine → Bool
  | .timing _ => true
  | _ => false

/-- The `(name, parameter group)` carried by a result line. -/
def resultInfo : OutLine → Option (String × List Val)
  | .result n pg _ => some (n, pg)
  | _ => none

/-- The callable-major, group-minor enumeration of all pairs: for each
callable in input order, all parameter groups in input order. -/
def idealOrder (fns : List (String × PyCallable)) (pgs : List (List Val)) :
    List (String × List Val) :=
  fns.flatMap fun nf => pgs.map fun pg => (nf.1, pg)

/-- Every timing line in the list carries a non-negative elapsed time. -/
def timingsNonneg (ls : List OutLine) : Bool :=
  ls.all fun l =>
    match l with
    | .timing t => decide (0 ≤ t)
    | _ => true

/-- The `(fn, pg)` invocation succeeds without propagating an exception:
either `fn(*pg)` returns, or it raises a `TypeError` and `fn(pg)`
returns. -/
def attemptSucceeds (fn : PyCallable) (pg : List Val) : Prop :=
  (∃ v, fn.callUnpacked pg = .ok v) ∨
    (∃ b v, fn.callUnpacked pg = .error (.typeError b) ∧ fn.callWhole pg = .ok v)

/-- A Python function of exactly two positional parameters, such as
`lambda a, b: ...`: unpacking binds iff the group has exactly two
elements, and calling it with the whole group as one argument is an
arity mismatch (a binding `TypeError`). -/
def twoArgCallable (f : Val → Val → PyResult) : PyCallable where
  callUnpacked
    | [a, b] => f a b
    | _ => .error (.typeError true)
  callWhole _ := .error (.typeError true)

/-- A Python function of exactly one positional parameter, such as
`lambda seq: ...`: unpacking binds iff the group has exactly one element,
and calling it with the whole group passes the tuple as that one
argument. -/
def oneSeqArg (f : Val → PyResult) : PyCallable where
  callUnpacked
    | [a] => f a
    | _ => .error (.typeError true)
  callWhole pg := f (.tuple pg)

/-- The body of `lambda a, b: a + b` on two values: integer addition, or
a (non-binding) `TypeError` on non-integers. -/
def addVal : Val → Val → PyResult
  | .int a, .int b => .ok (.int (a + b))
  | _, _ => .error (.typeError false)

/-- `"add": lambda a, b: a + b` from the concrete scenario. -/
def addFn : PyCallable := twoArgCallable addVal

/-- Python `sum` over a list of integer values, `none` on anything else. -/
def sumInts : List Val → Option Int
  | [] => some 0
  | .int n :: vs => (sumInts vs).map fun m => n + m
  | .tuple _ :: _ => none

/-- The body of `lambda seq: sum(seq)` on one value: sums an integer
tuple, raises a (non-binding) `TypeError` otherwise. -/
def sumVal : Val → PyResult
  | .tuple vs =>
      match sumInts vs with
      | some s => .ok (.int s)
      | none => .error (.typeError false)
  | .int _ => .error (.typeError false)

/-- `"sum_seq": lambda seq: sum(seq)` from the concrete scenario. -/
def sum_seq : PyCallable := oneSeqArg sumVal

/-- A callable that raises a non-`TypeError` exception however it is
called (e.g. `lambda *a: 1/0`). -/
def raiseOther : PyCallable where
  callUnpacked _ := .error .other
  callWhole _ := .error .other

/-- A callable whose body raises a `TypeError` from its own logic when
called with unpacked arguments, but returns its argument when handed the
whole group as one value. -/
def bodyTypeError : PyCallable where
  callUnpacked _ := .error (.typeError false)
  callWhole pg := .ok (.tuple pg)

/-- The identity-like callable `lambda x: x`, which succeeds on any
single argument. -/
def idFn : PyCallable := oneSeqArg fun v => .ok v

end Bench

namespace Bench

/-! ### Helper lemmas -/

/-- With no parameter groups, `runGroups` prints nothing, consumes no
clock reads, and raises nothing. -/
theorem runGroups_nil (clock : ℕ → ℚ) (fn : PyCallable) (name : String) (i : ℕ) :
    runGroups clock fn name i [] = ([], i, none) := rfl

/-- With no parameter groups, `runAll` prints exactly the header of each
callable, in order. -/
theorem runAll_no_groups (clock : ℕ → ℚ) (fns : List (String × PyCallable)) (i : ℕ) :
    runAll clock [] i fns = (fns.map fun nf => OutLine.header nf.1, i, none) := by
  induction fns generalizing i with
  | nil => rfl
  | cons nf rest ih =>
      rcases nf with ⟨name, fn⟩
      simp [runAll, runGroups, ih]

/-- A pair that satisfies `attemptSucceeds` makes `invokePair` return a
value: directly, timed by reads `i` and `i + 1`, or through the fallback,
timed by reads `i + 1` and `i + 2`. -/
theorem invokePair_ok_of_succeeds (clock : ℕ → ℚ) (i : ℕ) (fn : PyCallable)
    (pg : List Val) (h : attemptSucceeds fn pg) :
    (∃ v, invokePair clock i fn pg = .ok (v, clock (i + 1) - clock i, i + 2)) ∨
    (∃ v, invokePair clock i fn pg = .ok (v, clock (i + 2) - clock (i + 1), i + 3)) := by
  rcases h with ⟨v, hv⟩ | ⟨b, v, h1, h2⟩
  · exact Or.inl ⟨v, by simp [invokePair, hv]⟩
  · exact Or.inr ⟨v, by simp [invokePair, h1, h2]⟩

/-- Under all-success, the inner loop raises nothing and prints exactly
one result line and one timing line per parameter group, and no header. -/
theorem runGroups_counts (clock : ℕ → ℚ) (fn : PyCallable) (name : String)
    (pgs : List (List Val)) (h : ∀ pg ∈ pgs, attemptSucceeds fn pg) (i : ℕ) :
    (runGroups clock fn name i pgs).2.2 = none ∧
    (runGroups clock fn name i pgs).1.countP isResultLine = pgs.length ∧
    (runGroups clock fn name i pgs).1.countP isTimingLine = pgs.length ∧
    (runGroups clock fn name i pgs).1.countP isHeaderLine = 0 := by
  induction pgs generalizing i with
  | nil => simp [runGroups]
  | cons pg rest ih =>
      have hrest : ∀ q ∈ rest, attemptSucceeds fn q := fun q hq => h q (by simp [hq])
      rcases invokePair_ok_of_succeeds clock i fn pg (h pg (by simp)) with ⟨v, hv⟩ | ⟨v, hv⟩ <;>
        simpa [runGroups, hv, isResultLine, isTimingLine, isHeaderLine,
          List.countP_cons] using ih hrest _

/-- Under all-success, the whole run raises nothing and prints one header
per callable plus one result line and one timing line per
(callable, group) pair. -/
theorem runAll_counts (clock : ℕ → ℚ) (pgs : List (List Val))
    (fns : List (String × PyCallable))
    (h : ∀ nf ∈ fns, ∀ pg ∈ pgs, attemptSucceeds nf.2 pg) (i : ℕ) :
    (runAll clock pgs i fns).2.2 = none ∧
    (runAll clock pgs i fns).1.countP isHeaderLine = fns.length ∧
    (runAll clock pgs i fns).1.countP isResultLine = fns.length * pgs.length ∧
    (runAll clock pgs i fns).1.countP isTimingLine = fns.length * pgs.length := by
  induction fns generalizing i with
  | nil => simp [runAll]
  | cons nf rest ih =>
      rcases nf with ⟨name, fn⟩
      have hg := runGroups_counts clock fn name pgs
        (fun pg hpg => h (name, fn) (by simp) pg hpg) i
      have hrest : ∀ nf2 ∈ rest, ∀ pg ∈ pgs, attemptSucceeds nf2.2 pg :=
        fun nf2 hnf2 pg hpg => h nf2 (by simp [hnf2]) pg hpg
      rcases hr : runGroups clock fn name i pgs with ⟨ls, i2, e⟩
      rw [hr] at hg
      obtain ⟨he, hres, htim, hhd⟩ := hg
      subst he
      have ihr := ih hrest i2
      rcases hr2 : runAll clock pgs i2 rest with ⟨ls2, i3, e2⟩
      rw [hr2] at ihr
      obtain ⟨he2, hhd2, hres2, htim2⟩ := ihr
      subst he2
      simp [runAll, hr, hr2, List.countP_cons, List.countP_append, isHeaderLine,
        isResultLine, isTimingLine, hres, htim, hhd, hhd2, hres2, htim2]
      ring

/-- The result lines of the inner loop carry the name of the callable and
the groups in input order; what is printed is always an initial segment
of that full per-callable block. -/
theorem runGroups_resultInfo_prefix (clock : ℕ → ℚ) (fn : PyCallable)
    (name : String) (pgs : List (List Val)) (i : ℕ) :
    (runGroups clock fn name i pgs).1.filterMap resultInfo <+:
      pgs.map fun pg => (name, pg) := by
  induction pgs generalizing i with
  | nil => simp [runGroups]
  | cons pg rest ih =>
      rcases hinv : invokePair clock i fn pg with e | ⟨v, t, i2⟩
      · simp [runGroups, hinv]
      · obtain ⟨tl, htl⟩ := ih i2
        exact ⟨tl, by simp [runGroups, hinv, resultInfo, htl]⟩

/-- If the inner loop finishes without an exception, its result lines are
exactly the per-callable block, one per group in order. -/
theorem runGroups_resultInfo_of_none (clock : ℕ → ℚ) (fn : PyCallable)
    (name : String) (pgs : List (List Val)) (i : ℕ)
    (h : (runGroups clock fn name i pgs).2.2 = none) :
    (runGroups clock fn name i pgs).1.filterMap resultInfo =
      pgs.map fun pg => (name, pg) := by
  induction pgs generalizing i with
  | nil => simp [runGroups]
  | cons pg rest ih =>
      rcases hinv : invokePair clock i fn pg with e | ⟨v, t, i2⟩
      · rw [runGroups, hinv] at h
        simp at h
      · rw [runGroups, hinv] at h
        simp at h
        simp [runGroups, hinv, resultInfo, ih i2 h]

/-- The result lines of a whole run form an initial segment of the
callable-major, group-minor enumeration of all pairs. -/
theorem runAll_resultInfo_prefix (clock : ℕ → ℚ) (pgs : List (List Val))
    (fns : List (String × PyCallable)) (i : ℕ) :
    (runAll clock pgs i fns).1.filterMap resultInfo <+: idealOrder fns pgs := by
  induction fns generalizing i with
  | nil => simp [runAll, idealOrder]
  | cons nf rest ih =>
      rcases nf with ⟨name, fn⟩
      rcases hr : runGroups clock fn name i pgs with ⟨ls, i2, e⟩
      cases e with
      | some err =>
          have hpre := runGroups_resultInfo_prefix clock fn name pgs i
          rw [hr] at hpre
          have heq : (runAll clock pgs i ((name, fn) :: rest)).1.filterMap resultInfo =
              ls.filterMap resultInfo := by
            simp [runAll, hr, resultInfo]
          rw [heq, idealOrder, List.flatMap_cons]
          exact hpre.trans (List.prefix_append _ _)
      | none =>
          have heq := runGroups_resultInfo_of_none clock fn name pgs i (by rw [hr])
          rw [hr] at heq
          rcases hr2 : runAll clock pgs i2 rest with ⟨ls2, i3, e2⟩
          have ihp := ih i2
          rw [hr2] at ihp
          obtain ⟨tl, htl⟩ := ihp
          refine ⟨tl, ?_⟩
          rw [idealOrder, List.flatMap_cons]
          have hsplit : (runAll clock pgs i ((name, fn) :: rest)).1.filterMap resultInfo =
              ls.filterMap resultInfo ++ ls2.filterMap resultInfo := by
            simp [runAll, hr, hr2, resultInfo]
          rw [hsplit, heq, List.append_assoc, htl]
          rfl

/-- The elapsed time returned by a successful invocation is the
difference of the two clock reads surrounding the attempt that
succeeded. -/
theorem invokePair_ok_time (clock : ℕ → ℚ) (i : ℕ) (fn : PyCallable)
    (pg : List Val) (v : Val) (t : ℚ) (i2 : ℕ)
    (h : invokePair clock i fn pg = .ok (v, t, i2)) :
    ∃ j, t = clock (j + 1) - clock j := by
  rcases hu : fn.callUnpacked pg with e | w
  · rcases e with b | _
    · rcases hw : fn.callWhole pg with e2 | w2
      · simp [invokePair, hu, hw] at h
      · simp [invokePair, hu, hw] at h
        exact ⟨i + 1, h.2.1.symm⟩
    · simp [invokePair, hu] at h
  · simp [invokePair, hu] at h
    exact ⟨i, h.2.1.symm⟩

/-- Every timing line printed by the inner loop is the difference of two
consecutive clock reads. -/
theorem runGroups_timing_shape (clock : ℕ → ℚ) (fn : PyCallable) (name : String)
    (pgs : List (List Val)) (i : ℕ) (t : ℚ)
    (h : OutLine.timing t ∈ (runGroups clock fn name i pgs).1) :
    ∃ j, t = clock (j + 1) - clock j := by
  induction pgs generalizing i with
  | nil => simp [runGroups] at h
  | cons pg rest ih =>
      rcases hinv : invokePair clock i fn pg with e | ⟨v, t0, i2⟩
      · simp [runGroups, hinv] at h
      · simp [runGroups, hinv] at h
        rcases h with h | h
        · exact h ▸ invokePair_ok_time clock i fn pg v t0 i2 hinv
        · exact ih i2 h

/-- Every timing line printed by a whole run is the difference of two
consecutive clock reads. -/
theorem runAll_timing_shape (clock : ℕ → ℚ) (pgs : List (List Val))
    (fns : List (String × PyCallable)) (i : ℕ) (t : ℚ)
    (h : OutLine.timing t ∈ (runAll clock pgs i fns).1) :
    ∃ j, t = clock (j + 1) - clock j := by
  induction fns generalizing i with
  | nil => simp [runAll] at h
  | cons nf rest ih =>
      rcases nf with ⟨name, fn⟩
      rcases hr : runGroups clock fn name i pgs with ⟨ls, i2, e⟩
      have hls : OutLine.timing t ∈ ls → ∃ j, t = clock (j + 1) - clock j := by
        intro hm
        have hs := runGroups_timing_shape clock fn name pgs i t
        rw [hr] at hs
        exact hs hm
      cases e with
      | some err =>
          simp [runAll, hr] at h
          exact hls h
      | none =>
          rcases hr2 : runAll clock pgs i2 rest with ⟨ls2, i3, e2⟩
          simp [runAll, hr, hr2] at h
          rcases h with h | h
          · exact hls h
          · exact ih i2 (by rw [hr2]; exact h)

end Bench

namespace Bench

/-! ### The claims -/

/-- C1: the claim says every formatted output line is delivered to the
configured sink.  The code contradicts its own docstring: the `logger`
argument is accepted but never invoked — every line goes to the built-in
`print`.  For every sink of any type the list of messages delivered to it
is empty, while a concrete run demonstrably prints lines. -/
theorem logger_never_receives_output :
    (∀ (α : Type) (logger : α) (clock : ℕ → ℚ) (pgs : List (List Val))
        (fns : List (String × PyCallable)),
        (bench_compare_multiple clock logger pgs fns).sinkMsgs = []) ∧
    (bench_compare_multiple (fun _ => (0 : ℚ)) (fun (_ : String) => ())
        [[Val.int 1, Val.int 2]] [("add", addFn)]).printed ≠ [] := by
  constructor
  · intro α logger clock pgs fns
    rcases h : runAll clock pgs 0 fns with ⟨ls, i, e⟩
    simp [bench_compare_multiple, h]
  · intro h
    have hp : (bench_compare_multiple (fun _ => (0 : ℚ)) (fun (_ : String) => ())
        [[Val.int 1, Val.int 2]] [("add", addFn)]).printed =
        [.header "add", .result "add" [.int 1, .int 2] (.int 3),
         .timing ((0 : ℚ) - 0)] := rfl
    rw [hp] at h
    simp at h

/-- C2 counterexample: callable A raises a non-`TypeError` exception on
its only parameter group while callable B would succeed; the run aborts
at A with only the header of A printed — no failed record for A, and none
of the records of B — refuting the claimed failure isolation. -/
theorem failure_aborts_run_cex :
    bench_compare_multiple (fun _ => (0 : ℚ)) () [[Val.int 1]]
      [("A", raiseOther), ("B", idFn)] = ⟨[.header "A"], [], some .other⟩ ∧
    (bench_compare_multiple (fun _ => (0 : ℚ)) () [[Val.int 1]]
      [("A", raiseOther), ("B", idFn)]).printed.countP isResultLine = 0 := by
  constructor
  · rfl
  · rfl

/-- C2 amended: if the unpacked invocation of a callable raises a
non-`TypeError` exception, the exception propagates and the run aborts:
only the header of that callable is printed, no failure record is
emitted, and no subsequent (callable, parameter-group) pair is
attempted. -/
theorem nonTypeError_aborts_run (clock : ℕ → ℚ) (name : String) (fn : PyCallable)
    (rest : List (String × PyCallable)) (pg : List Val) (pgs : List (List Val))
    (h : fn.callUnpacked pg = .error .other) :
    bench_compare_multiple clock () (pg :: pgs) ((name, fn) :: rest) =
      ⟨[.header name], [], some .other⟩ := by
  simp [bench_compare_multiple, runAll, runGroups, invokePair, h]

/-- C2 witness: the amended statement at a concrete run. -/
theorem nonTypeError_aborts_run_witness :
    raiseOther.callUnpacked [Val.int 1] = .error .other ∧
    bench_compare_multiple (fun _ => (0 : ℚ)) () [[Val.int 1]]
      [("A", raiseOther), ("B", idFn)] = ⟨[.header "A"], [], some .other⟩ :=
  ⟨rfl, nonTypeError_aborts_run (fun _ => (0 : ℚ)) "A" raiseOther [("B", idFn)]
    [Val.int 1] [] rfl⟩

/-- C3 counterexample: with an empty callable mapping the run raises no
error at all (`err = none`) and emits nothing — there is no fail-fast
configuration error in the code. -/
theorem empty_callables_cex :
    bench_compare_multiple (fun _ => (0 : ℚ)) () [[Val.int 1]]
      ([] : List (String × PyCallable)) = ⟨[], [], none⟩ := rfl

/-- C3 amended: calling the Comparator with an empty callable mapping
raises no error, performs no invocation, and emits no output records. -/
theorem empty_callables_silent (clock : ℕ → ℚ) (pgs : List (List Val)) :
    bench_compare_multiple clock () pgs ([] : List (String × PyCallable)) =
      ⟨[], [], none⟩ := rfl

/-- C4 counterexample: a callable whose body raises a `TypeError` from
its own logic (ghost flag `fromBinding = false`) IS retried with the
whole-sequence fallback, and the run records the fallback value as a
successful record — refuting the claim that only binding failures
trigger the fallback. -/
theorem body_typeError_retried_cex :
    bodyTypeError.callUnpacked [Val.int 1] = .error (.typeError false) ∧
    bench_compare_multiple (fun _ => (0 : ℚ)) () [[Val.int 1]] [("f", bodyTypeError)] =
      ⟨[.header "f", .result "f" [.int 1] (.tuple [.int 1]), .timing ((0 : ℚ) - 0)],
       [], none⟩ := ⟨rfl, rfl⟩

/-- C4 amended: the whole-sequence fallback is attempted exactly when the
unpacked attempt raises a `TypeError`, whether it is an argument-binding
failure or a `TypeError` from inside the body of the callable; a
non-`TypeError` failure is never retried and is not surfaced as a failed
record — it propagates. -/
theorem typeError_triggers_fallback (clock : ℕ → ℚ) (i : ℕ) (fn : PyCallable)
    (pg : List Val) :
    (∀ b, fn.callUnpacked pg = .error (.typeError b) →
      invokePair clock i fn pg =
        match fn.callWhole pg with
        | .ok v => .ok (v, clock (i + 2) - clock (i + 1), i + 3)
        | .error e => .error e) ∧
    (fn.callUnpacked pg = .error .other →
      invokePair clock i fn pg = .error .other) := by
  constructor
  · intro b hb
    simp [invokePair, hb]
  · intro h
    simp [invokePair, h]

/-- C4 witness: the amended statement at a concrete callable whose body
raises a `TypeError` on the unpacked call. -/
theorem typeError_triggers_fallback_witness :
    bodyTypeError.callUnpacked [Val.int 1] = .error (.typeError false) ∧
    invokePair (fun _ => (0 : ℚ)) 0 bodyTypeError [Val.int 1] =
      .ok (.tuple [.int 1], (0 : ℚ) - 0, 3) :=
  ⟨rfl, (typeError_triggers_fallback (fun _ => (0 : ℚ)) 0 bodyTypeError [Val.int 1]).1
    false rfl⟩

/-- C5: a callable taking exactly one sequence argument, on a parameter
group of length greater than 1: the unpacked attempt is an
argument-binding `TypeError`, the Comparator falls back to passing the
whole group as one argument, and the emitted record is a successful one
carrying the value of the callable on the whole group. -/
theorem one_seq_arg_fallback_success (clock : ℕ → ℚ) (f : Val → PyResult)
    (name : String) (pg : List Val) (r : Val) (hlen : 1 < pg.length)
    (hok : f (Val.tuple pg) = .ok r) :
    (oneSeqArg f).callUnpacked pg = .error (.typeError true) ∧
    bench_compare_multiple clock () [pg] [(name, oneSeqArg f)] =
      ⟨[.header name, .result name pg r, .timing (clock 2 - clock 1)], [], none⟩ := by
  match pg, hlen with
  | a :: b :: t, _ =>
    constructor
    · rfl
    · simp [bench_compare_multiple, runAll, runGroups, invokePair, oneSeqArg, hok]

/-- C5 witness: `sum_seq` on the group `(1, 2)`. -/
theorem one_seq_arg_fallback_success_witness :
    1 < ([Val.int 1, Val.int 2] : List Val).length ∧
    sumVal (Val.tuple [Val.int 1, Val.int 2]) = .ok (.int 3) ∧
    bench_compare_multiple (fun _ => (0 : ℚ)) () [[Val.int 1, Val.int 2]]
      [("sum_seq", oneSeqArg sumVal)] =
      ⟨[.header "sum_seq", .result "sum_seq" [.int 1, .int 2] (.int 3),
        .timing ((0 : ℚ) - 0)], [], none⟩ :=
  ⟨by decide, rfl,
    (one_seq_arg_fallback_success (fun _ => (0 : ℚ)) sumVal "sum_seq"
      [Val.int 1, Val.int 2] (.int 3) (by decide) rfl).2⟩

/-- C6: the concrete scenario with `add` and `sum_seq` on groups
`(1, 2)` and `(3, 4)`: the output is exactly the header of `add`, the
records `add((1, 2)) = 3` and `add((3, 4)) = 7`, each followed by its
timing line, then the header of `sum_seq` and the records
`sum_seq((1, 2)) = 3` and `sum_seq((3, 4)) = 7`, each followed by its
timing line — the block of `add` strictly preceding the block of
`sum_seq`, for any clock. -/
theorem concrete_scenario_output (clock : ℕ → ℚ) :
    bench_compare_multiple clock ()
      [[Val.int 1, Val.int 2], [Val.int 3, Val.int 4]]
      [("add", addFn), ("sum_seq", sum_seq)] =
    ⟨[.header "add",
      .result "add" [.int 1, .int 2] (.int 3), .timing (clock 1 - clock 0),
      .result "add" [.int 3, .int 4] (.int 7), .timing (clock 3 - clock 2),
      .header "sum_seq",
      .result "sum_seq" [.int 1, .int 2] (.int 3), .timing (clock 6 - clock 5),
      .result "sum_seq" [.int 3, .int 4] (.int 7), .timing (clock 9 - clock 8)],
     [], none⟩ ∧
    (bench_compare_multiple clock ()
      [[Val.int 1, Val.int 2], [Val.int 3, Val.int 4]]
      [("add", addFn), ("sum_seq", sum_seq)]).printed.map renderLine =
    ["Testing add:",
     "\tadd((1, 2)) = 3", "\tTime = " ++ timeStr (clock 1 - clock 0),
     "\tadd((3, 4)) = 7", "\tTime = " ++ timeStr (clock 3 - clock 2),
     "Testing sum_seq:",
     "\tsum_seq((1, 2)) = 3", "\tTime = " ++ timeStr (clock 6 - clock 5),
     "\tsum_seq((3, 4)) = 7", "\tTime = " ++ timeStr (clock 9 - clock 8)] :=
  ⟨rfl, rfl⟩

/-- C7 counterexample: one callable raising a non-`TypeError` on one
group (N = M = 1): the claim promises exactly one result record
regardless of failure, but the code prints the header only and aborts —
zero result records. -/
theorem record_count_cex :
    (bench_compare_multiple (fun _ => (0 : ℚ)) () [[Val.int 1]]
      [("A", raiseOther)]).printed = [OutLine.header "A"] ∧
    (bench_compare_multiple (fun _ => (0 : ℚ)) () [[Val.int 1]]
      [("A", raiseOther)]).printed.countP isResultLine ≠ 1 * 1 := by
  constructor
  · rfl
  · intro h
    have h0 : (0 : ℕ) = 1 * 1 := h
    simp at h0

/-- C7 amended: for a non-empty callable mapping with N entries and a
non-empty group sequence with M entries, PROVIDED every
(callable, group) invocation succeeds (directly or through the
`TypeError` fallback), the run emits exactly N header lines, N×M result
lines and N×M timing lines, and raises nothing; a failing pair instead
aborts the run with fewer records. -/
theorem record_count_all_success (clock : ℕ → ℚ) (pgs : List (List Val))
    (fns : List (String × PyCallable)) (hfns : fns ≠ []) (hpgs : pgs ≠ [])
    (h : ∀ nf ∈ fns, ∀ pg ∈ pgs, attemptSucceeds nf.2 pg) :
    (bench_compare_multiple clock () pgs fns).err = none ∧
    (bench_compare_multiple clock () pgs fns).printed.countP isHeaderLine = fns.length ∧
    (bench_compare_multiple clock () pgs fns).printed.countP isResultLine =
      fns.length * pgs.length ∧
    (bench_compare_multiple clock () pgs fns).printed.countP isTimingLine =
      fns.length * pgs.length := by
  have hc := runAll_counts clock pgs fns h 0
  rcases hr : runAll clock pgs 0 fns with ⟨ls, i, e⟩
  rw [hr] at hc
  simpa [bench_compare_multiple, hr] using hc

/-- C7 witness: the amended statement at a concrete all-success run. -/
theorem record_count_all_success_witness :
    ([("sum_seq", sum_seq)] : List (String × PyCallable)) ≠ [] ∧
    ([[Val.int 1, Val.int 2]] : List (List Val)) ≠ [] ∧
    (bench_compare_multiple (fun _ => (0 : ℚ)) () [[Val.int 1, Val.int 2]]
      [("sum_seq", sum_seq)]).err = none ∧
    (bench_compare_multiple (fun _ => (0 : ℚ)) () [[Val.int 1, Val.int 2]]
      [("sum_seq", sum_seq)]).printed.countP isHeaderLine = 1 ∧
    (bench_compare_multiple (fun _ => (0 : ℚ)) () [[Val.int 1, Val.int 2]]
      [("sum_seq", sum_seq)]).printed.countP isResultLine = 1 * 1 ∧
    (bench_compare_multiple (fun _ => (0 : ℚ)) () [[Val.int 1, Val.int 2]]
      [("sum_seq", sum_seq)]).printed.countP isTimingLine = 1 * 1 :=
  ⟨by simp, by simp,
    record_count_all_success (fun _ => (0 : ℚ)) [[Val.int 1, Val.int 2]]
      [("sum_seq", sum_seq)] (by simp) (by simp)
      (by
        intro nf hnf pg hpg
        simp at hnf hpg
        subst hnf hpg
        exact Or.inr ⟨true, .int 3, rfl, rfl⟩)⟩

/-- C8: for every input, the result records of a run, read in emission
order, form an initial segment of the callable-major, group-minor
enumeration of all (callable, group) pairs: all records of an earlier
callable strictly precede those of a later one, and within one callable
the groups appear in input order. -/
theorem records_callable_major_order (clock : ℕ → ℚ) (pgs : List (List Val))
    (fns : List (String × PyCallable)) :
    (bench_compare_multiple clock () pgs fns).printed.filterMap resultInfo <+:
      idealOrder fns pgs := by
  have hp := runAll_resultInfo_prefix clock pgs fns 0
  rcases hr : runAll clock pgs 0 fns with ⟨ls, i, e⟩
  rw [hr] at hp
  simpa [bench_compare_multiple, hr] using hp

/-- C9: every emitted elapsed time is the difference of two consecutive
clock reads — the reads taken immediately before and after the attempt
that succeeded — and therefore, for a monotone (non-decreasing) clock
source, every emitted elapsed time is non-negative. -/
theorem timing_lines_nonneg (clock : ℕ → ℚ) (pgs : List (List Val))
    (fns : List (String × PyCallable)) (hmono : ∀ j, clock j ≤ clock (j + 1)) :
    (∀ t, OutLine.timing t ∈ (bench_compare_multiple clock () pgs fns).printed →
        ∃ j, t = clock (j + 1) - clock j) ∧
    timingsNonneg (bench_compare_multiple clock () pgs fns).printed = true := by
  have hshape : ∀ t, OutLine.timing t ∈ (bench_compare_multiple clock () pgs fns).printed →
      ∃ j, t = clock (j + 1) - clock j := by
    intro t ht
    rcases hr : runAll clock pgs 0 fns with ⟨ls, i, e⟩
    rw [bench_compare_multiple, hr] at ht
    have hs := runAll_timing_shape clock pgs fns 0 t
    rw [hr] at hs
    exact hs ht
  refine ⟨hshape, ?_⟩
  rw [timingsNonneg, List.all_eq_true]
  intro l hl
  cases l with
  | header name => rfl
  | result name pg ans => rfl
  | timing t =>
      obtain ⟨j, hj⟩ := hshape t hl
      simp only [decide_eq_true_eq]
      rw [hj]
      exact sub_nonneg.mpr (hmono j)

/-- C9 witness: non-negativity of all emitted times at a concrete
monotone clock. -/
theorem timing_lines_nonneg_witness :
    timingsNonneg (bench_compare_multiple (fun _ => (0 : ℚ)) ()
      [[Val.int 1, Val.int 2]] [("sum_seq", sum_seq)]).printed = true :=
  (timing_lines_nonneg (fun _ => (0 : ℚ)) [[Val.int 1, Val.int 2]]
    [("sum_seq", sum_seq)] (fun _ => le_refl 0)).2

/-- C10: a non-empty callable mapping with an empty parameter-group
sequence: no error is raised and the output is exactly one header line
per callable, in mapping order, with no result and no timing lines. -/
theorem empty_groups_headers_only (clock : ℕ → ℚ)
    (fns : List (String × PyCallable)) (h : fns ≠ []) :
    bench_compare_multiple clock () [] fns =
      ⟨fns.map fun nf => OutLine.header nf.1, [], none⟩ := by
  simp [bench_compare_multiple, runAll_no_groups]

/-- C10 witness: one callable, no groups. -/
theorem empty_groups_headers_only_witness :
    ([("add", addFn)] : List (String × PyCallable)) ≠ [] ∧
    bench_compare_multiple (fun _ => (0 : ℚ)) () [] [("add", addFn)] =
      ⟨[.header "add"], [], none⟩ :=
  ⟨by simp, empty_groups_headers_only (fun _ => (0 : ℚ)) [("add", addFn)] (by simp)⟩

end Bench
